import Mathlib

/-!
Verification of the Review-Manager feedback-lifecycle specification.

The repository ships design documents and a Next.js frontend; the
feedback-lifecycle core (routing engine, conversation state machine,
delivery/retry manager, outreach scheduler) described by the specification
is not present in the sources, so those components are modelled from the
specification text and marked as such.  The `ApiClient.request` method and
the analytics page computations are embedded directly from the TypeScript
sources.
-/

namespace ReviewManager

/-- Sentiment labels produced by the classifier (spec §3, `SentimentResult`). -/
inductive SentimentLabel
| positive
| neutral
| negative
deriving DecidableEq, Repr

/-- Routing decisions (spec §3, `RoutingDecision.decision`). -/
inductive Decision
| request_review
| escalate
| log_neutral
| manual_review
deriving DecidableEq, Repr

/-- Outcome of executing a routing decision (spec §3, `RoutingDecision.outcome`). -/
inductive Outcome
| success
| failure
deriving DecidableEq, Repr

/-- Result of one classifier invocation: failure, timeout, or a labelled
verdict with a confidence in `[0,1]` (spec §4.3 contract). -/
inductive ClassifierOutcome
| failure
| timeout
| result (label : SentimentLabel) (confidence : ℚ)
deriving DecidableEq, Repr

/-- Externally tunable routing thresholds (spec §4.4 and §9 open question). -/
structure RoutingConfig where
  confidenceFloor : ℚ
  positiveThreshold : ℚ
deriving DecidableEq, Repr

/-- Modelled from the spec: the Routing Engine (§4.4) is absent from the
repository sources (only planning documents and frontend callers exist), so
its decision table is taken from the spec text: 1. failure/timeout or
confidence below floor gives `manual_review`; 2. negative gives `escalate`;
3. positive at or above the positive threshold gives `request_review`;
4. otherwise `log_neutral`. -/
def routeSentiment (cfg : RoutingConfig) (o : ClassifierOutcome) : Decision :=
  match o with
  | .failure => .manual_review
  | .timeout => .manual_review
  | .result label conf =>
      if conf < cfg.confidenceFloor then .manual_review
      else
        match label with
        | .negative => .escalate
        | .positive =>
            if cfg.positiveThreshold ≤ conf then .request_review else .log_neutral
        | .neutral => .log_neutral

/-- States of the per-visit conversation state machine (spec §4.2). -/
inductive VisitState
| Created
| PendingOutreach
| AwaitingResponse
| Classifying
| Routed
| NoResponse
| DeliveryFailed
| ConfigError
deriving DecidableEq, Repr

/-- Delivery status of an outreach attempt (spec §3, `OutreachAttempt`). -/
inductive DeliveryStatus
| queued
| sent
| delivered
| read
| failed
deriving DecidableEq, Repr

/-- An `OutreachAttempt` record (spec §3): the gateway-assigned delivery id
and the current delivery status. -/
structure OutreachAttempt where
  deliveryId : ℕ
  status : DeliveryStatus
deriving DecidableEq, Repr

/-- A `SentimentResult` record (spec §3): label and confidence. -/
structure SentimentResult where
  label : SentimentLabel
  confidence : ℚ
deriving DecidableEq, Repr

/-- A `RoutingDecision` record (spec §3): the decision and its outcome. -/
structure RoutingDecision where
  decision : Decision
  outcome : Outcome
deriving DecidableEq, Repr

/-- The per-visit `FeedbackRequest` aggregate (spec §3): current state plus
the records owned by the visit and the set of webhook event ids already
ingested. -/
structure FeedbackRequest where
  state : VisitState
  attempts : List OutreachAttempt
  retryCount : ℕ
  classifyRetries : ℕ
  deadline : Option ℕ
  responsesReceived : ℕ
  sentiments : List SentimentResult
  decisions : List RoutingDecision
  effectsExecuted : List Decision
  processedEventIds : List ℕ
deriving DecidableEq, Repr

/-- The freshly created `FeedbackRequest` for a recorded visit. -/
def FeedbackRequest.init : FeedbackRequest :=
  ⟨.Created, [], 0, 0, none, 0, [], [], [], []⟩

/-- System configuration: retry bounds, response timeout and routing
thresholds (spec §4). -/
structure Config where
  maxRetries : ℕ
  responseTimeout : ℕ
  classifyRetryMax : ℕ
  routing : RoutingConfig
deriving Repr

/-- Events consumed by the conversation state machine (spec §4.2 and §6):
the scheduler trigger, gateway delivery webhooks (with event id and arrival
time), inbound customer responses, classification completion, and timer
checks. -/
inductive Event
| schedulerTrigger
| deliveryEvent (deliveryId : ℕ) (status : DeliveryStatus) (eventId : ℕ) (now : ℕ)
| inboundResponse (eventId : ℕ)
| classifierOutcome (o : ClassifierOutcome) (effectOk : Bool)
| timerCheck (now : ℕ)
deriving DecidableEq, Repr

/-- Observable side effects emitted by a step: an outbound send for a given
delivery id, or the execution of a routing decision's side effect. -/
inductive Effect
| sendMessage (deliveryId : ℕ)
| routingEffect (d : Decision)
deriving DecidableEq, Repr

/-- Number of attempts currently in `sent` status. -/
def countSent (l : List OutreachAttempt) : ℕ :=
  l.countP (fun a => decide (a.status = DeliveryStatus.sent))

/-- Number of routing decisions with `outcome = success`. -/
def countSuccess (ds : List RoutingDecision) : ℕ :=
  ds.countP (fun d => decide (d.outcome = Outcome.success))

/-- The already-recorded successful routing decision of a visit, if any. -/
def findSuccess (ds : List RoutingDecision) : Option RoutingDecision :=
  ds.find? (fun d => decide (d.outcome = Outcome.success))

/-- Update the delivery status of the attempt keyed by `did`
(channel_message_id lookup; keys are unique, so only the first match is
updated). -/
def updateAttempt (l : List OutreachAttempt) (did : ℕ) (s : DeliveryStatus) :
    List OutreachAttempt :=
  match l with
  | [] => []
  | a :: rest =>
      if a.deliveryId = did then { a with status := s } :: rest
      else a :: updateAttempt rest did s

/-- Modelled from the spec: the Routing Engine trigger (§4.4) is absent from
the repository sources; per the spec it first checks for an existing
successful `RoutingDecision` and, if one exists, is a no-op returning it;
otherwise it computes the decision from the classifier outcome, attempts the
side effect, and records the decision with its outcome, moving the visit to
`Routed` on success. -/
def routeTrigger (cfg : RoutingConfig) (v : FeedbackRequest)
    (o : ClassifierOutcome) (effectOk : Bool) :
    FeedbackRequest × List Effect × RoutingDecision :=
  match findSuccess v.decisions with
  | some d => (v, [], d)
  | none =>
      let dec := routeSentiment cfg o
      if effectOk then
        ({ v with state := .Routed
                  decisions := v.decisions ++ [⟨dec, .success⟩]
                  effectsExecuted := v.effectsExecuted ++ [dec] },
         [.routingEffect dec], ⟨dec, .success⟩)
      else
        ({ v with decisions := v.decisions ++ [⟨dec, .failure⟩] },
         [], ⟨dec, .failure⟩)

/-- Modelled from the spec: the Conversation State Machine (§4.2), the
Delivery & Retry Manager (§4.5) and the Outreach Scheduler trigger handling
are absent from the repository sources; the step function below follows the
spec's transition list: the scheduler trigger fires outreach only from
`Created`; delivery webhooks are idempotent per event id, move the visit to
`AwaitingResponse` on `sent` (setting the response deadline), and on `failed`
either retry (while the retry budget lasts) or park the visit in
`DeliveryFailed`; inbound responses move `AwaitingResponse` to `Classifying`;
classification completion routes via the Routing Engine, with a bounded
classification retry budget after which the visit is force-routed; the timer
moves `AwaitingResponse` to `NoResponse` at the deadline when no response was
received; terminal states consume no event. -/
def step (cfg : Config) (v : FeedbackRequest) (e : Event) :
    FeedbackRequest × List Effect :=
  match e with
  | .schedulerTrigger =>
      match v.state with
      | .Created =>
          ({ v with state := .PendingOutreach
                    attempts := v.attempts ++ [⟨v.attempts.length, .queued⟩] },
           [.sendMessage v.attempts.length])
      | _ => (v, [])
  | .deliveryEvent did status eid now =>
      if v.processedEventIds.contains eid then (v, [])
      else
        match v.state with
        | .PendingOutreach =>
            match status with
            | .sent =>
                ({ v with state := .AwaitingResponse
                          attempts := updateAttempt v.attempts did .sent
                          deadline := some (now + cfg.responseTimeout)
                          processedEventIds := v.processedEventIds ++ [eid] }, [])
            | .failed =>
                if v.retryCount < cfg.maxRetries then
                  ({ v with attempts := updateAttempt v.attempts did .failed
                              ++ [⟨v.attempts.length, .queued⟩]
                            retryCount := v.retryCount + 1
                            processedEventIds := v.processedEventIds ++ [eid] },
                   [.sendMessage v.attempts.length])
                else
                  ({ v with state := .DeliveryFailed
                            attempts := updateAttempt v.attempts did .failed
                            processedEventIds := v.processedEventIds ++ [eid] }, [])
            | _ =>
                ({ v with attempts := updateAttempt v.attempts did status
                          processedEventIds := v.processedEventIds ++ [eid] }, [])
        | .AwaitingResponse =>
            ({ v with attempts := updateAttempt v.attempts did status
                      processedEventIds := v.processedEventIds ++ [eid] }, [])
        | .Classifying =>
            ({ v with attempts := updateAttempt v.attempts did status
                      processedEventIds := v.processedEventIds ++ [eid] }, [])
        | _ => (v, [])
  | .inboundResponse eid =>
      if v.processedEventIds.contains eid then (v, [])
      else
        match v.state with
        | .AwaitingResponse =>
            ({ v with state := .Classifying
                      responsesReceived := v.responsesReceived + 1
                      processedEventIds := v.processedEventIds ++ [eid] }, [])
        | .Classifying =>
            ({ v with responsesReceived := v.responsesReceived + 1
                      processedEventIds := v.processedEventIds ++ [eid] }, [])
        | _ => (v, [])
  | .classifierOutcome o effectOk =>
      match v.state with
      | .Classifying =>
          match o with
          | .result lab conf =>
              let r := routeTrigger cfg.routing
                { v with sentiments := v.sentiments ++ [⟨lab, conf⟩] } o effectOk
              (r.1, r.2.1)
          | _ =>
              if v.classifyRetries < cfg.classifyRetryMax then
                ({ v with classifyRetries := v.classifyRetries + 1 }, [])
              else
                let r := routeTrigger cfg.routing v o effectOk
                (r.1, r.2.1)
      | _ => (v, [])
  | .timerCheck now =>
      match v.state with
      | .AwaitingResponse =>
          match v.deadline with
          | some dl =>
              if v.responsesReceived = 0 ∧ dl ≤ now then
                ({ v with state := .NoResponse }, [])
              else (v, [])
          | none => (v, [])
      | _ => (v, [])

/-- Terminal states of the conversation state machine (spec §4.2 and
glossary): `Routed`, `NoResponse`, `DeliveryFailed`, `ConfigError`. -/
def isTerminal : VisitState → Bool
| .Routed => true
| .NoResponse => true
| .DeliveryFailed => true
| .ConfigError => true
| _ => false

/-- The idempotency key of an event, when it has one (spec §5: webhook and
response events are idempotent on their event id). -/
def eventKey : Event → Option ℕ
| .deliveryEvent _ _ eid _ => some eid
| .inboundResponse eid => some eid
| _ => none

/-- The no-double-outreach invariant: before outreach is attempted there are
no attempts at all, and while outreach delivery is pending no attempt has
reached `sent` status. -/
def sentInvariant (v : FeedbackRequest) : Prop :=
  (v.state = VisitState.Created → v.attempts = []) ∧
  (v.state = VisitState.PendingOutreach → countSent v.attempts = 0)

/-- The retry-budget invariant: the retry counter never exceeds the
configured maximum, and a visit that never left the outreach phase (or ended
in `DeliveryFailed`) has no `SentimentResult`. -/
def retryInvariant (cfg : Config) (v : FeedbackRequest) : Prop :=
  v.retryCount ≤ cfg.maxRetries ∧
  ((v.state = VisitState.Created ∨ v.state = VisitState.PendingOutreach ∨
      v.state = VisitState.DeliveryFailed) → v.sentiments = [])

/-- Outreach scheduler configuration (spec §4.1): the post-visit delay and
the restaurant's quiet-hours window, as hours of day in `[0, 24)`. -/
structure SchedulerConfig where
  delayHours : ℕ
  quietStart : ℕ
  quietEnd : ℕ
deriving DecidableEq, Repr

/-- Modelled from the spec: the Outreach Scheduler (§4.1) is absent from the
repository sources; this predicate says whether the hour of day of time `t`
(times are whole hours) falls inside the quiet-hours window `[qs, qe)`,
which may wrap midnight; a window with equal endpoints is empty. -/
def inQuietHours (qs qe t : ℕ) : Bool :=
  if qs ≤ qe then decide (qs ≤ t % 24 ∧ t % 24 < qe)
  else decide (qs ≤ t % 24 ∨ t % 24 < qe)

/-- The next hour at or after `t` whose hour of day is `qe`, the first
permitted hour after a quiet window ending at `qe`. -/
def nextPermittedHour (qe t : ℕ) : ℕ := t + (qe + 24 - t % 24) % 24

/-- Modelled from the spec: the Outreach Scheduler send-time policy (§4.1) is
absent from the repository sources; per the spec the earliest send is visit
time plus the configured delay, pushed to the next permitted hour whenever it
falls inside the quiet-hours window. -/
def scheduleSend (cfg : SchedulerConfig) (visitTime : ℕ) : ℕ :=
  if inQuietHours cfg.quietStart cfg.quietEnd (visitTime + cfg.delayHours) then
    nextPermittedHour cfg.quietEnd (visitTime + cfg.delayHours)
  else visitTime + cfg.delayHours

/-- A parsed JSON body as seen by `ApiClient.request`
(src/unnamed/part_005): an opaque payload together with the value of its
`error` property when present (an empty string is falsy for the
`errorData.error || ...` disjunction). -/
structure JsonBody where
  value : String
  errorField : Option String
deriving DecidableEq, Repr

/-- A thrown JavaScript value: whether it is an `Error` instance, and its
message when it is. -/
structure ThrownError where
  isError : Bool
  message : String
deriving DecidableEq, Repr

/-- The `fetch` response as consumed by `ApiClient.request`: the `ok` flag,
the numeric status, and the result of `response.json()` (which may reject). -/
structure HttpResponse where
  ok : Bool
  status : Nat
  body : Except ThrownError JsonBody
deriving Repr

/-- The complete outcome of the `fetch` call inside `ApiClient.request`:
either the promise resolves to a response, or it rejects with a thrown
value (network error). -/
inductive FetchOutcome
| resolved (r : HttpResponse)
| rejected (e : ThrownError)
deriving Repr

/-- The `ApiResponse<T>` shape of src/unnamed/part_005 lines 7-11:
optional parsed data and optional error string. -/
structure ApiResponse where
  data : Option String
  error : Option String
deriving DecidableEq, Repr

/-- Embedding of `ApiClient.request` (src/unnamed/part_005 lines 26-57):
on a non-ok response the error field of the parsed body (or `Network error`
when parsing fails, or `HTTP <status>` when the field is absent or falsy) is
returned as `error`; on an ok response the parsed body is returned as `data`;
any exception (network failure, JSON parse failure on an ok response) is
caught and returned as `error`. -/
def ApiClient.request (o : FetchOutcome) : ApiResponse :=
  match o with
  | .rejected e =>
      { data := none
        error := some (if e.isError then e.message else "Unknown error") }
  | .resolved r =>
      if r.ok then
        match r.body with
        | .ok b => { data := some b.value, error := none }
        | .error e =>
            { data := none
              error := some (if e.isError then e.message else "Unknown error") }
      else
        { data := none
          error := some
            (match r.body with
             | .error _ => "Network error"
             | .ok b =>
                 match b.errorField with
                 | some s => if s = "" then "HTTP " ++ toString r.status else s
                 | none => "HTTP " ++ toString r.status) }

/-- JavaScript `Math.round` on exact (rational) values: half-up rounding. -/
def jsRound (x : ℚ) : ℤ := ⌊x + 1/2⌋

/-- The `AnalyticsStats` interface of
src/frontend/src/app/analytics/page.tsx lines 23-37. -/
structure AnalyticsStats where
  total_customers : ℕ
  customers_today : ℕ
  customers_this_week : ℕ
  customers_this_month : ℕ
  pending_contact : ℕ
  contacted : ℕ
  responded : ℕ
  completed : ℕ
  failed : ℕ
  response_rate : ℚ
  positive_feedback_rate : ℚ
  average_rating : Option ℚ
  google_reviews_generated : ℕ
deriving DecidableEq, Repr

/-- One row of the analytics page's recent-analytics table. -/
structure StatRow where
  customers : ℕ
  responses : ℕ
  positive : ℤ
  negative : ℤ
  neutral : ℤ
deriving DecidableEq, Repr

/-- Embedding of the "Customer Statistics" row built by `getRecentAnalytics`
(src/frontend/src/app/analytics/page.tsx lines 116-125): positive is
`Math.round(positive_feedback_rate / 100 * total_customers)`, negative is
`failed`, and neutral is the remainder `total_customers - positive - failed`. -/
def customerStatisticsRow (s : AnalyticsStats) : StatRow :=
  { customers := s.total_customers
    responses := s.responded + s.completed
    positive := jsRound (s.positive_feedback_rate / 100 * s.total_customers)
    negative := (s.failed : ℤ)
    neutral := (s.total_customers : ℤ)
      - jsRound (s.positive_feedback_rate / 100 * s.total_customers)
      - (s.failed : ℤ) }

lemma find?_append_of_none {α : Type} (p : α → Bool) (l₁ l₂ : List α)
    (h : l₁.find? p = none) : (l₁ ++ l₂).find? p = l₂.find? p := by
  induction l₁ with
  | nil => simp
  | cons a l ih =>
      cases hp : p a
      · simp only [List.find?, hp] at h
        simpa [List.find?, hp] using ih h
      · simp [List.find?, hp] at h

lemma countSuccess_eq_zero_of_findSuccess_none {ds : List RoutingDecision}
    (h : findSuccess ds = none) : countSuccess ds = 0 := by
  unfold findSuccess at h
  unfold countSuccess
  rw [List.countP_eq_zero]
  intro a ha
  exact List.find?_eq_none.mp h a ha

lemma countSuccess_append (a b : List RoutingDecision) :
    countSuccess (a ++ b) = countSuccess a + countSuccess b :=
  List.countP_append _ _ _

lemma countSuccess_routeTrigger_le (rc : RoutingConfig) (v : FeedbackRequest)
    (o : ClassifierOutcome) (b : Bool) (h : countSuccess v.decisions ≤ 1) :
    countSuccess (routeTrigger rc v o b).1.decisions ≤ 1 := by
  unfold routeTrigger
  cases hfs : findSuccess v.decisions with
  | some d => simpa using h
  | none =>
      have h0 : countSuccess v.decisions = 0 :=
        countSuccess_eq_zero_of_findSuccess_none hfs
      have key : ∀ x : RoutingDecision, countSuccess (v.decisions ++ [x]) ≤ 1 := by
        intro x
        rw [countSuccess_append, h0, Nat.zero_add]
        exact le_trans (List.countP_le_length _) (by simp)
      cases b
      · simpa using key ⟨routeSentiment rc o, Outcome.failure⟩
      · simpa using key ⟨routeSentiment rc o, Outcome.success⟩

lemma countSuccess_step_le (cfg : Config) (v : FeedbackRequest) (e : Event)
    (h : countSuccess v.decisions ≤ 1) :
    countSuccess (step cfg v e).1.decisions ≤ 1 := by
  cases e <;> simp only [step] <;> repeat' split
  all_goals
    first
      | simpa using h
      | exact countSuccess_routeTrigger_le _ _ _ _ (by simpa using h)

/-- C1: the routing decision follows the §4.4 precedence table top to bottom:
failure/timeout or confidence below the floor yields `manual_review`; otherwise
a negative label yields `escalate` regardless of confidence; otherwise a
positive label at or above the positive threshold yields `request_review`; and
the remaining cases (neutral, or positive below threshold) yield
`log_neutral`. -/
lemma countSent_append (a b : List OutreachAttempt) :
    countSent (a ++ b) = countSent a + countSent b :=
  List.countP_append _ _ _

lemma countSent_updateAttempt_le (l : List OutreachAttempt) (did : ℕ)
    (s : DeliveryStatus) :
    countSent (updateAttempt l did s) ≤ countSent l + 1 := by
  induction l with
  | nil => simp [updateAttempt, countSent]
  | cons a rest ih =>
      unfold updateAttempt
      by_cases hd : a.deliveryId = did
      · simp only [if_pos hd, countSent, List.countP_cons] at ih ⊢
        split_ifs <;> omega
      · simp only [if_neg hd, countSent, List.countP_cons] at ih ⊢
        split_ifs <;> omega

lemma countSent_updateAttempt_of_ne (l : List OutreachAttempt) (did : ℕ)
    {s : DeliveryStatus} (hs : ¬ s = DeliveryStatus.sent) :
    countSent (updateAttempt l did s) ≤ countSent l := by
  induction l with
  | nil => simp [updateAttempt]
  | cons a rest ih =>
      unfold updateAttempt
      by_cases hd : a.deliveryId = did
      · simp only [if_pos hd, countSent, List.countP_cons] at ih ⊢
        simp only [decide_eq_true_eq]
        split_ifs <;> simp_all
      · simp only [if_neg hd, countSent, List.countP_cons] at ih ⊢
        split_ifs <;> omega

lemma routeTrigger_fields (rc : RoutingConfig) (v : FeedbackRequest)
    (o : ClassifierOutcome) (b : Bool) :
    (routeTrigger rc v o b).1.attempts = v.attempts ∧
    (routeTrigger rc v o b).1.retryCount = v.retryCount ∧
    ((routeTrigger rc v o b).1.state = v.state ∨
      (routeTrigger rc v o b).1.state = VisitState.Routed) := by
  unfold routeTrigger
  cases findSuccess v.decisions <;> cases b <;> simp

lemma step_terminal (cfg : Config) (v : FeedbackRequest) (e : Event)
    (h : isTerminal v.state = true) : step cfg v e = (v, []) := by
  cases e <;> cases hv : v.state <;>
    simp [isTerminal, hv] at h ⊢ <;> simp [step, hv]

lemma countSent_updateAttempt_zero (l : List OutreachAttempt) (did : ℕ)
    {s : DeliveryStatus} (hs : ¬ s = DeliveryStatus.sent)
    (h : countSent l = 0) : countSent (updateAttempt l did s) = 0 :=
  Nat.le_zero.mp (le_trans (countSent_updateAttempt_of_ne l did hs) (le_of_eq h))

lemma mem_updateAttempt_status (l : List OutreachAttempt) (did : ℕ)
    {s : DeliveryStatus} (hs : ¬ s = DeliveryStatus.sent)
    (h : ∀ a ∈ l, ¬ a.status = DeliveryStatus.sent) :
    ∀ a ∈ updateAttempt l did s, ¬ a.status = DeliveryStatus.sent := by
  induction l with
  | nil => simp [updateAttempt]
  | cons a rest ih =>
      unfold updateAttempt
      by_cases hd : a.deliveryId = did
      · simp only [if_pos hd]
        intro b hb
        rcases List.mem_cons.mp hb with rfl | hb
        · exact hs
        · exact h b (List.mem_cons_of_mem _ hb)
      · simp only [if_neg hd]
        intro b hb
        rcases List.mem_cons.mp hb with rfl | hb
        · exact h b (List.mem_cons_self _ _)
        · exact ih (fun x hx => h x (List.mem_cons_of_mem _ hx)) b hb

lemma step_sentInv (cfg : Config) (v : FeedbackRequest) (e : Event)
    (h : sentInvariant v) : sentInvariant (step cfg v e).1 := by
  obtain ⟨h1, h2⟩ := h
  unfold sentInvariant
  cases e <;> simp only [step, routeTrigger] <;> repeat' split
  all_goals refine ⟨fun hs => ?_, fun hs => ?_⟩
  all_goals try simp_all [countSent_append, countSent_updateAttempt_zero, countSent]
  all_goals exact mem_updateAttempt_status _ _ (by first | assumption | simp) h2

lemma step_countSent_le_one (cfg : Config) (v : FeedbackRequest) (e : Event)
    (h : sentInvariant v) (hv : v.state = VisitState.PendingOutreach) :
    countSent (step cfg v e).1.attempts ≤ 1 := by
  obtain ⟨h1, h2⟩ := h
  have h0 := h2 hv
  cases e with
  | schedulerTrigger => simp [step, hv, h0]
  | deliveryEvent did s eid now =>
      by_cases hc : eid ∈ v.processedEventIds
      · simp [step, hc, h0]
      · cases s with
        | sent =>
            have hle := countSent_updateAttempt_le v.attempts did DeliveryStatus.sent
            simp [step, hc, hv]
            omega
        | failed =>
            by_cases hr : v.retryCount < cfg.maxRetries
            · have hne := countSent_updateAttempt_of_ne v.attempts did
                (s := DeliveryStatus.failed) (by simp)
              have happ := countSent_append
                (updateAttempt v.attempts did DeliveryStatus.failed)
                [⟨v.attempts.length, DeliveryStatus.queued⟩]
              have hq : countSent
                  [(⟨v.attempts.length, DeliveryStatus.queued⟩ : OutreachAttempt)] = 0 := by
                simp [countSent]
              simp [step, hc, hv, hr]
              omega
            · have hne := countSent_updateAttempt_of_ne v.attempts did
                (s := DeliveryStatus.failed) (by simp)
              simp [step, hc, hv, hr]
              omega
        | queued =>
            have hne := countSent_updateAttempt_of_ne v.attempts did
              (s := DeliveryStatus.queued) (by simp)
            simp [step, hc, hv]
            omega
        | delivered =>
            have hne := countSent_updateAttempt_of_ne v.attempts did
              (s := DeliveryStatus.delivered) (by simp)
            simp [step, hc, hv]
            omega
        | read =>
            have hne := countSent_updateAttempt_of_ne v.attempts did
              (s := DeliveryStatus.read) (by simp)
            simp [step, hc, hv]
            omega
  | inboundResponse eid =>
      by_cases hc : eid ∈ v.processedEventIds
      · simp [step, hc, h0]
      · simp [step, hc, hv, h0]
  | classifierOutcome o b => simp [step, hv, h0]
  | timerCheck now => simp [step, hv, h0]

lemma step_scheduler_noop (cfg : Config) (v : FeedbackRequest)
    (hv : ¬ v.state = VisitState.Created) :
    step cfg v Event.schedulerTrigger = (v, []) := by
  cases h : v.state
  case Created => exact absurd h hv
  all_goals simp [step, h]

lemma step_retryInv (cfg : Config) (v : FeedbackRequest) (e : Event)
    (h : retryInvariant cfg v) : retryInvariant cfg (step cfg v e).1 := by
  obtain ⟨h1, h2⟩ := h
  unfold retryInvariant
  cases e <;> simp only [step, routeTrigger] <;> repeat' split
  all_goals refine ⟨?_, fun hs => ?_⟩
  all_goals try simp_all
  all_goals omega

lemma nextPermittedHour_mod (qe t : ℕ) (h : qe < 24) :
    nextPermittedHour qe t % 24 = qe := by
  unfold nextPermittedHour
  omega

lemma inQuietHours_hour_eq (qs qe t : ℕ) (h : t % 24 = qe) :
    inQuietHours qs qe t = false := by
  unfold inQuietHours
  rcases le_or_lt qs qe with hle | hlt
  · rw [if_pos hle]
    simp only [h, decide_eq_false_iff_not]
    omega
  · rw [if_neg (not_le.mpr hlt)]
    simp only [h, decide_eq_false_iff_not]
    omega

theorem routing_decision_table_precedence (cfg : RoutingConfig) (o : ClassifierOutcome) :
    ((o = .failure ∨ o = .timeout) → routeSentiment cfg o = .manual_review) ∧
    (∀ l c, o = .result l c → c < cfg.confidenceFloor →
      routeSentiment cfg o = .manual_review) ∧
    (∀ c, o = .result .negative c → ¬ c < cfg.confidenceFloor →
      routeSentiment cfg o = .escalate) ∧
    (∀ c, o = .result .positive c → ¬ c < cfg.confidenceFloor →
      cfg.positiveThreshold ≤ c → routeSentiment cfg o = .request_review) ∧
    (∀ l c, o = .result l c → ¬ c < cfg.confidenceFloor →
      (l = .neutral ∨ (l = .positive ∧ c < cfg.positiveThreshold)) →
      routeSentiment cfg o = .log_neutral) := by
  refine ⟨?_, ?_, ?_, ?_, ?_⟩
  · rintro (rfl | rfl) <;> rfl
  · rintro l c rfl hc
    simp [routeSentiment, hc]
  · rintro c rfl hc
    simp [routeSentiment, hc]
  · rintro c rfl hc ht
    simp [routeSentiment, hc, ht]
  · rintro l c rfl hc hl
    rcases hl with rfl | ⟨rfl, ht⟩
    · simp [routeSentiment, hc]
    · simp [routeSentiment, hc, not_le.mpr ht]

/-- Witness for C1: precedence rule 2 fires for a negative label even when
the confidence (2/5) is below the positive threshold. -/
theorem routing_decision_table_precedence_witness :
    routeSentiment ⟨1/4, 4/5⟩ (.result .negative (2/5)) = .escalate :=
  (routing_decision_table_precedence ⟨1/4, 4/5⟩
    (.result .negative (2/5))).2.2.1 (2/5) rfl (by norm_num)

/-- C2: fail-closed classification — when the classifier fails, times out, or
returns confidence below the configured floor, the routing decision is
`manual_review`, never `request_review` and never `escalate`. -/
theorem routing_fail_closed (cfg : RoutingConfig) (o : ClassifierOutcome)
    (h : o = .failure ∨ o = .timeout ∨
      ∃ l c, o = .result l c ∧ c < cfg.confidenceFloor) :
    routeSentiment cfg o = .manual_review ∧
    routeSentiment cfg o ≠ .request_review ∧
    routeSentiment cfg o ≠ .escalate := by
  have hm : routeSentiment cfg o = .manual_review := by
    rcases h with rfl | rfl | ⟨l, c, rfl, hc⟩
    · rfl
    · rfl
    · simp [routeSentiment, hc]
  exact ⟨hm, by simp [hm], by simp [hm]⟩

/-- Witness for C2: a low-confidence positive verdict is routed to
`manual_review`. -/
theorem routing_fail_closed_witness :
    routeSentiment ⟨1/2, 4/5⟩ (.result .positive (1/10)) = .manual_review ∧
    routeSentiment ⟨1/2, 4/5⟩ (.result .positive (1/10)) ≠ .request_review ∧
    routeSentiment ⟨1/2, 4/5⟩ (.result .positive (1/10)) ≠ .escalate :=
  routing_fail_closed ⟨1/2, 4/5⟩ (.result .positive (1/10))
    (Or.inr (Or.inr ⟨.positive, 1/10, rfl, by norm_num⟩))

/-- C3: routing is idempotent — a successful routing decision is never
duplicated: the decision list never holds more than one success, a trigger
arriving when a successful decision already exists is a no-op that returns the
recorded decision with no side effect, replaying a classification-complete
trigger after a successful routing is such a no-op, and every state-machine
step preserves the at-most-one-success invariant. -/
theorem routing_idempotent_at_most_one_success (cfg : Config)
    (v : FeedbackRequest) (o : ClassifierOutcome) (b : Bool)
    (h : countSuccess v.decisions ≤ 1) :
    countSuccess (routeTrigger cfg.routing v o b).1.decisions ≤ 1 ∧
    (∀ d, findSuccess v.decisions = some d →
      routeTrigger cfg.routing v o b = (v, [], d)) ∧
    (∀ o2 b2,
      routeTrigger cfg.routing (routeTrigger cfg.routing v o true).1 o2 b2 =
        ((routeTrigger cfg.routing v o true).1, [],
          (routeTrigger cfg.routing v o true).2.2)) ∧
    (∀ e, countSuccess (step cfg v e).1.decisions ≤ 1) := by
  refine ⟨countSuccess_routeTrigger_le _ _ _ _ h, ?_, ?_, fun e => countSuccess_step_le cfg v e h⟩
  · intro d hd
    simp [routeTrigger, hd]
  · intro o2 b2
    cases hfs : findSuccess v.decisions with
    | some d =>
        simp [routeTrigger, hfs]
    | none =>
        have hfind :
            findSuccess (v.decisions ++
              [⟨routeSentiment cfg.routing o, Outcome.success⟩]) =
            some ⟨routeSentiment cfg.routing o, Outcome.success⟩ := by
          unfold findSuccess at hfs ⊢
          rw [find?_append_of_none _ _ _ hfs]
          simp [List.find?]
        simp [routeTrigger, hfs, hfind]

/-- Witness for C3: on a fresh visit record a second trigger after a
successful routing is a no-op returning the recorded decision. -/
theorem routing_idempotent_at_most_one_success_witness :
    routeTrigger (⟨1/2, 4/5⟩ : RoutingConfig)
      (routeTrigger ⟨1/2, 4/5⟩ FeedbackRequest.init ClassifierOutcome.failure true).1
      ClassifierOutcome.failure true =
    ((routeTrigger ⟨1/2, 4/5⟩ FeedbackRequest.init ClassifierOutcome.failure true).1, [],
      (routeTrigger ⟨1/2, 4/5⟩ FeedbackRequest.init ClassifierOutcome.failure true).2.2) :=
  (routing_idempotent_at_most_one_success
    (⟨3, 48, 2, ⟨1/2, 4/5⟩⟩ : Config) FeedbackRequest.init
    ClassifierOutcome.failure true (by decide)).2.2.1
    ClassifierOutcome.failure true

/-- C9: `ApiClient.request` never throws — every fetch outcome yields either a
data payload or an error string, never both; an ok response with a parsed JSON
body yields exactly that body as data; non-ok responses and rejected fetches
never yield data; and an ok response whose JSON body fails to parse yields the
caught exception message as the error string and no data. -/
theorem apiClient_request_never_throws (o : FetchOutcome) :
    ((ApiClient.request o).error.isSome ∨ (ApiClient.request o).data.isSome) ∧
    ¬ ((ApiClient.request o).error.isSome ∧ (ApiClient.request o).data.isSome) ∧
    (∀ r b, o = .resolved r → r.ok = true → r.body = .ok b →
      ApiClient.request o = { data := some b.value, error := none }) ∧
    (∀ r, o = .resolved r → r.ok = false → (ApiClient.request o).data = none) ∧
    (∀ e, o = .rejected e → (ApiClient.request o).data = none) ∧
    (∀ r e2, o = .resolved r → r.ok = true → r.body = .error e2 →
      ApiClient.request o =
        { data := none
          error := some (if e2.isError then e2.message else "Unknown error") }) := by
  refine ⟨?_, ?_, ?_, ?_, ?_, ?_⟩
  · rcases o with r | e
    · rcases r with ⟨ok, status, b | b⟩ <;> rcases ok <;>
        simp [ApiClient.request]
    · simp [ApiClient.request]
  · rcases o with r | e
    · rcases r with ⟨ok, status, b | b⟩ <;> rcases ok <;>
        simp [ApiClient.request]
    · simp [ApiClient.request]
  · rintro r b rfl hok hb
    simp [ApiClient.request, hok, hb]
  · rintro r rfl hok
    simp [ApiClient.request, hok]
  · rintro e rfl
    simp [ApiClient.request]
  · rintro r e2 rfl hok hb
    simp [ApiClient.request, hok, hb]

/-- Witness for C9: an ok 200 response with a parsed body resolves to data
with no error, and an ok 200 response whose body fails to parse resolves to
the caught parse-error message with no data. -/
theorem apiClient_request_never_throws_witness :
    ApiClient.request (.resolved ⟨true, 200, .ok ⟨"payload", none⟩⟩) =
      { data := some "payload", error := none } ∧
    ApiClient.request (.resolved ⟨true, 200, .error ⟨true, "Unexpected token"⟩⟩) =
      { data := none, error := some "Unexpected token" } :=
  ⟨(apiClient_request_never_throws
      (.resolved ⟨true, 200, .ok ⟨"payload", none⟩⟩)).2.2.1
      ⟨true, 200, .ok ⟨"payload", none⟩⟩ ⟨"payload", none⟩ rfl rfl rfl,
    by
      have h := (apiClient_request_never_throws
        (.resolved ⟨true, 200, .error ⟨true, "Unexpected token"⟩⟩)).2.2.2.2.2
        ⟨true, 200, .error ⟨true, "Unexpected token"⟩⟩ ⟨true, "Unexpected token"⟩
        rfl rfl rfl
      simpa using h⟩

/-- C10: in the "Customer Statistics" row the three sentiment counts always
sum to the customer total exactly, because neutral is computed as the
remainder; and precisely for that reason neutral can be negative. -/
theorem analytics_sentiment_partition :
    (∀ s : AnalyticsStats,
      (customerStatisticsRow s).positive + (customerStatisticsRow s).negative +
        (customerStatisticsRow s).neutral = (s.total_customers : ℤ)) ∧
    (∃ s : AnalyticsStats, (customerStatisticsRow s).neutral < 0) := by
  constructor
  · intro s
    simp only [customerStatisticsRow]
    ring
  · refine ⟨⟨10, 0, 0, 0, 0, 0, 0, 0, 2, 0, 100, none, 0⟩, ?_⟩
    have h : jsRound ((100 : ℚ) / 100 * (10 : ℕ)) = 10 := by
      norm_num [jsRound]
    simp only [customerStatisticsRow, h]
    norm_num

/-- C4: no double outreach — the no-sent-attempt invariant is preserved by
every step, any single step from `PendingOutreach` leaves at most one attempt
in `sent` status, the scheduler trigger is a no-op in every state other than
`Created` (it fires at most once per visit), and the initial visit record
satisfies the invariant. -/
theorem no_double_outreach (cfg : Config) (v : FeedbackRequest) (e : Event)
    (h : sentInvariant v) :
    sentInvariant (step cfg v e).1 ∧
    (v.state = VisitState.PendingOutreach →
      countSent (step cfg v e).1.attempts ≤ 1) ∧
    (¬ v.state = VisitState.Created →
      step cfg v Event.schedulerTrigger = (v, [])) ∧
    sentInvariant FeedbackRequest.init := by
  refine ⟨step_sentInv cfg v e h, fun hv => step_countSent_le_one cfg v e h hv,
    fun hv => step_scheduler_noop cfg v hv, ?_⟩
  exact ⟨fun _ => rfl, fun _ => rfl⟩

/-- Witness for C4: the step that reports `sent` from `PendingOutreach`
leaves at most one attempt in `sent` status. -/
theorem no_double_outreach_witness :
    countSent (step ⟨3, 48, 2, ⟨1/2, 4/5⟩⟩
      { FeedbackRequest.init with state := VisitState.PendingOutreach }
      (Event.deliveryEvent 0 DeliveryStatus.sent 7 100)).1.attempts ≤ 1 :=
  (no_double_outreach ⟨3, 48, 2, ⟨1/2, 4/5⟩⟩
    { FeedbackRequest.init with state := VisitState.PendingOutreach }
    (Event.deliveryEvent 0 DeliveryStatus.sent 7 100)
    ⟨(fun h => nomatch h), fun _ => rfl⟩).2.1 rfl

/-- C5: the retry counter never exceeds `max_retries` (the invariant is
preserved by every step), a `failed` delivery report arriving with the budget
exhausted parks the visit in the terminal `DeliveryFailed` state, and a visit
in `DeliveryFailed` has no `SentimentResult` and never steps again. -/
theorem retry_bound_and_delivery_failed (cfg : Config) (v : FeedbackRequest)
    (e : Event) (h : retryInvariant cfg v) :
    retryInvariant cfg (step cfg v e).1 ∧
    (∀ did eid now, v.state = VisitState.PendingOutreach →
      ¬ eid ∈ v.processedEventIds →
      cfg.maxRetries ≤ v.retryCount →
      (step cfg v (Event.deliveryEvent did DeliveryStatus.failed eid now)).1.state =
        VisitState.DeliveryFailed) ∧
    (v.state = VisitState.DeliveryFailed →
      v.sentiments = [] ∧ step cfg v e = (v, [])) ∧
    retryInvariant cfg FeedbackRequest.init := by
  refine ⟨step_retryInv cfg v e h, ?_, ?_, Nat.zero_le _, fun _ => rfl⟩
  · intro did eid now hv hfresh hx
    have hnr : ¬ v.retryCount < cfg.maxRetries := Nat.not_lt.mpr hx
    simp [step, hfresh, hv, hnr]
  · intro hv
    exact ⟨h.2 (Or.inr (Or.inr hv)),
      step_terminal cfg v e (by simp [isTerminal, hv])⟩

/-- Witness for C5: with a zero retry budget a `failed` report moves the
visit to `DeliveryFailed`. -/
theorem retry_bound_and_delivery_failed_witness :
    (step ⟨0, 48, 2, ⟨1/2, 4/5⟩⟩
      { FeedbackRequest.init with state := VisitState.PendingOutreach }
      (Event.deliveryEvent 0 DeliveryStatus.failed 7 100)).1.state =
      VisitState.DeliveryFailed :=
  (retry_bound_and_delivery_failed ⟨0, 48, 2, ⟨1/2, 4/5⟩⟩
    { FeedbackRequest.init with state := VisitState.PendingOutreach }
    (Event.deliveryEvent 0 DeliveryStatus.failed 7 100)
    ⟨Nat.zero_le _, fun _ => rfl⟩).2.1 0 7 100 rfl (by decide) (Nat.zero_le _)

/-- C6: webhook ingestion is idempotent per event id — delivering the same
keyed event (delivery status update or inbound response) a second time is a
complete no-op: the whole record, and in particular `retryCount` and the
visit status, keep the values they had after the first application, and no
effect is emitted. -/
theorem webhook_ingestion_idempotent (cfg : Config) (v : FeedbackRequest)
    (e : Event) (eid : ℕ) (h : eventKey e = some eid) :
    step cfg (step cfg v e).1 e = ((step cfg v e).1, []) ∧
    (step cfg (step cfg v e).1 e).1.retryCount = (step cfg v e).1.retryCount ∧
    (step cfg (step cfg v e).1 e).1.state = (step cfg v e).1.state := by
  suffices key : step cfg (step cfg v e).1 e = ((step cfg v e).1, []) by
    exact ⟨key, by rw [key], by rw [key]⟩
  cases e with
  | schedulerTrigger => simp [eventKey] at h
  | deliveryEvent did s eid2 now =>
      by_cases hc : eid2 ∈ v.processedEventIds
      · simp [step, hc]
      · cases hv : v.state <;> cases s <;>
          by_cases hr : v.retryCount < cfg.maxRetries <;>
          simp [step, hc, hv, hr]
  | inboundResponse eid2 =>
      by_cases hc : eid2 ∈ v.processedEventIds
      · simp [step, hc]
      · cases hv : v.state <;> simp [step, hc, hv]
  | classifierOutcome o b => simp [eventKey] at h
  | timerCheck now => simp [eventKey] at h

/-- Witness for C6: replaying a `sent` webhook on a fresh visit is a no-op
after the first application. -/
theorem webhook_ingestion_idempotent_witness :
    step ⟨3, 48, 2, ⟨1/2, 4/5⟩⟩
        (step ⟨3, 48, 2, ⟨1/2, 4/5⟩⟩ FeedbackRequest.init
          (Event.deliveryEvent 0 DeliveryStatus.sent 7 100)).1
        (Event.deliveryEvent 0 DeliveryStatus.sent 7 100) =
      ((step ⟨3, 48, 2, ⟨1/2, 4/5⟩⟩ FeedbackRequest.init
        (Event.deliveryEvent 0 DeliveryStatus.sent 7 100)).1, []) :=
  (webhook_ingestion_idempotent ⟨3, 48, 2, ⟨1/2, 4/5⟩⟩ FeedbackRequest.init
    (Event.deliveryEvent 0 DeliveryStatus.sent 7 100) 7 rfl).1

/-- C7: timeout correctness — with zero responses received, a timer check
strictly before the deadline leaves `AwaitingResponse` untouched, a timer
check at or after the deadline moves the visit to `NoResponse`, `NoResponse`
is terminal (no event ever steps it again), and the deadline is set to the
send time plus the configured response timeout when outreach is reported
`sent`. -/
theorem response_timeout_correct (cfg : Config) (v : FeedbackRequest)
    (now dl : ℕ) (hA : v.state = VisitState.AwaitingResponse)
    (hdl : v.deadline = some dl) (h0 : v.responsesReceived = 0) :
    (now < dl → step cfg v (Event.timerCheck now) = (v, [])) ∧
    (dl ≤ now →
      (step cfg v (Event.timerCheck now)).1.state = VisitState.NoResponse) ∧
    (∀ (w : FeedbackRequest) (e : Event), w.state = VisitState.NoResponse →
      step cfg w e = (w, [])) ∧
    (∀ (w : FeedbackRequest) (did eid now0 : ℕ),
      w.state = VisitState.PendingOutreach → ¬ eid ∈ w.processedEventIds →
      (step cfg w (Event.deliveryEvent did DeliveryStatus.sent eid now0)).1.deadline =
        some (now0 + cfg.responseTimeout)) := by
  refine ⟨?_, ?_, ?_, ?_⟩
  · intro hlt
    simp [step, hA, hdl, h0, not_le.mpr hlt]
  · intro hle
    simp [step, hA, hdl, h0, hle]
  · intro w e hw
    exact step_terminal cfg w e (by simp [isTerminal, hw])
  · intro w did eid now0 hw hfresh
    simp [step, hfresh, hw]

/-- Witness for C7: a visit awaiting a response with deadline 148 and no
responses reaches `NoResponse` on the timer check at time 148. -/
theorem response_timeout_correct_witness :
    (step ⟨3, 48, 2, ⟨1/2, 4/5⟩⟩
      { FeedbackRequest.init with
          state := VisitState.AwaitingResponse, deadline := some 148 }
      (Event.timerCheck 148)).1.state = VisitState.NoResponse :=
  (response_timeout_correct ⟨3, 48, 2, ⟨1/2, 4/5⟩⟩
    { FeedbackRequest.init with
        state := VisitState.AwaitingResponse, deadline := some 148 }
    148 148 rfl rfl rfl).2.1 (le_refl 148)

/-- C8: no outreach is scheduled inside quiet hours — the scheduled send time
is never inside the quiet-hours window, it is at least visit time plus the
configured delay, and when the computed time is already outside quiet hours
it is exactly visit time plus the delay. -/
theorem quiet_hours_respected (cfg : SchedulerConfig) (visitTime : ℕ)
    (hqe : cfg.quietEnd < 24) :
    inQuietHours cfg.quietStart cfg.quietEnd (scheduleSend cfg visitTime) = false ∧
    visitTime + cfg.delayHours ≤ scheduleSend cfg visitTime ∧
    (inQuietHours cfg.quietStart cfg.quietEnd (visitTime + cfg.delayHours) = false →
      scheduleSend cfg visitTime = visitTime + cfg.delayHours) := by
  by_cases hq : inQuietHours cfg.quietStart cfg.quietEnd
      (visitTime + cfg.delayHours) = true
  · refine ⟨?_, ?_, ?_⟩
    · unfold scheduleSend
      rw [if_pos hq]
      exact inQuietHours_hour_eq _ _ _ (nextPermittedHour_mod _ _ hqe)
    · unfold scheduleSend
      rw [if_pos hq]
      unfold nextPermittedHour
      omega
    · intro hfalse
      rw [hfalse] at hq
      exact Bool.noConfusion hq
  · have hq2 : inQuietHours cfg.quietStart cfg.quietEnd
        (visitTime + cfg.delayHours) = false := by simpa using hq
    refine ⟨?_, ?_, fun _ => ?_⟩
    · unfold scheduleSend
      rw [if_neg hq]
      exact hq2
    · unfold scheduleSend
      rw [if_neg hq]
    · unfold scheduleSend
      rw [if_neg hq]

/-- Witness for C8: a visit at hour 21 with a 2-hour delay and quiet window
22:00-08:00 is not messaged inside the quiet window. -/
theorem quiet_hours_respected_witness :
    inQuietHours 22 8 (scheduleSend ⟨2, 22, 8⟩ 21) = false :=
  (quiet_hours_respected ⟨2, 22, 8⟩ 21 (by norm_num)).1

end ReviewManager
